import Mathlib

/-!
Verification of the OAuth 2.1 authorization-server core of the MCP gateway
(packages/mcp/src/oauth: pkce.ts, store.ts, handlers.ts), as a shallow
embedding in Lean 4.

JavaScript `Map`s are modelled as association lists with the usual
set/get/delete operations; JavaScript string truthiness (`!s` is true for
both `null` and `""`) is modelled explicitly by `truthy`.  Randomly
generated values (codes, tokens, internal state) and the result of the
identity-exchange network calls are passed to the handler functions as
parameters; `Date.now()` is a `Nat` parameter in epoch milliseconds.
-/

namespace OAuthMCP

/-- JavaScript truthiness of a `string | null` value: `null` and `""` are falsy. -/
def truthy : Option String → Bool
  | none => false
  | some s => !(s = "")

/-- JavaScript `x || d` for a `string | null` value `x` and default `d`. -/
def orDefault (o : Option String) (d : String) : String :=
  match o with
  | none => d
  | some s => if s = "" then d else s

/-! ### Association-list model of a JavaScript `Map` -/

/-- Model of `Map.get`: value of the first (and, for maps built by `setA`, only) entry with the key. -/
def getA {V : Type} : List (String × V) → String → Option V
  | [], _ => none
  | (k', v') :: rest, k => if k' = k then some v' else getA rest k

/-- Model of `Map.set`: replace the value at the key in place, or append a new entry. -/
def setA {V : Type} : List (String × V) → String → V → List (String × V)
  | [], k, v => [(k, v)]
  | (k', v') :: rest, k, v =>
      if k' = k then (k, v) :: rest else (k', v') :: setA rest k v

/-- Model of `Map.delete`: remove the entry with the key, if present. -/
def delA {V : Type} : List (String × V) → String → List (String × V)
  | [], _ => []
  | (k', v') :: rest, k => if k' = k then rest else (k', v') :: delA rest k

/-- Keys of an association list are pairwise distinct (true of every JS `Map`). -/
def keysNodup {V : Type} (m : List (String × V)) : Prop :=
  (m.map Prod.fst).Nodup

instance {V : Type} (m : List (String × V)) : Decidable (keysNodup m) := by
  unfold keysNodup; infer_instance

/-! ### SHA-256 (FIPS 180-4), bytes as `Nat` values below 256 -/

/-- Truncate to a 32-bit word. -/
def w32 (n : Nat) : Nat := n % 4294967296

/-- 32-bit right rotation. -/
def rotr (x n : Nat) : Nat := w32 ((x <<< (32 - n)) ||| (x >>> n))

def shaCh (x y z : Nat) : Nat := (x &&& y) ^^^ ((x ^^^ 4294967295) &&& z)

def shaMaj (x y z : Nat) : Nat := (x &&& y) ^^^ (x &&& z) ^^^ (y &&& z)

def bigSigma0 (x : Nat) : Nat := rotr x 22 ^^^ (rotr x 2 ^^^ rotr x 13)

def bigSigma1 (x : Nat) : Nat := rotr x 25 ^^^ (rotr x 6 ^^^ rotr x 11)

def smallSigma0 (x : Nat) : Nat := (x >>> 3) ^^^ (rotr x 7 ^^^ rotr x 18)

def smallSigma1 (x : Nat) : Nat := (x >>> 10) ^^^ (rotr x 17 ^^^ rotr x 19)

def sha256K : Array Nat := #[
  1116352408, 1899447441, 3049323471, 3921009573, 961987163, 1508970993,
  2453635748, 2870763221, 3624381080, 310598401, 607225278, 1426881987,
  1925078388, 2162078206, 2614888103, 3248222580, 3835390401, 4022224774,
  264347078, 604807628, 770255983, 1249150122, 1555081692, 1996064986,
  2554220882, 2821834349, 2952996808, 3210313671, 3336571891, 3584528711,
  113926993, 338241895, 666307205, 773529912, 1294757372, 1396182291,
  1695183700, 1986661051, 2177026350, 2456956037, 2730485921, 2820302411,
  3259730800, 3345764771, 3516065817, 3600352804, 4094571909, 275423344,
  430227734, 506948616, 659060556, 883997877, 958139571, 1322822218,
  1537002063, 1747873779, 1955562222, 2024104815, 2227730452, 2361852424,
  2428436474, 2756734187, 3204031479, 3329325298]

def sha256H0 : List Nat :=
  [1779033703, 3144134277, 1013904242, 2773480762, 1359893119, 2600822924, 528734635, 1541459225]

/-- Big-endian bytes of the 64-bit message bit length. -/
def lenBytes (bitLen : Nat) : List Nat :=
  [bitLen >>> 56 % 256, bitLen >>> 48 % 256, bitLen >>> 40 % 256, bitLen >>> 32 % 256,
   bitLen >>> 24 % 256, bitLen >>> 16 % 256, bitLen >>> 8 % 256, bitLen % 256]

/-- SHA-256 padding: append `0x80`, zeros to 56 mod 64, then the 64-bit bit length. -/
def shaPad (msg : List Nat) : List Nat :=
  msg ++ [0x80] ++ List.replicate ((119 - msg.length % 64) % 64) 0 ++ lenBytes (8 * msg.length)

/-- One SHA-256 compression round over a 64-byte block. -/
def shaCompress (h : List Nat) (block : List Nat) : List Nat := Id.run do
  let mut w : Array Nat := #[]
  for i in [0:16] do
    w := w.push ((block.getD (4 * i) 0) <<< 24 ||| (block.getD (4 * i + 1) 0) <<< 16 |||
                 (block.getD (4 * i + 2) 0) <<< 8 ||| block.getD (4 * i + 3) 0)
  for t in [16:64] do
    w := w.push (w32 (smallSigma1 (w.getD (t - 2) 0) + w.getD (t - 7) 0 +
                      smallSigma0 (w.getD (t - 15) 0) + w.getD (t - 16) 0))
  let mut a := h.getD 0 0
  let mut b := h.getD 1 0
  let mut c := h.getD 2 0
  let mut d := h.getD 3 0
  let mut e := h.getD 4 0
  let mut f := h.getD 5 0
  let mut g := h.getD 6 0
  let mut hh := h.getD 7 0
  for t in [0:64] do
    let t1 := w32 (hh + bigSigma1 e + shaCh e f g + sha256K.getD t 0 + w.getD t 0)
    let t2 := w32 (bigSigma0 a + shaMaj a b c)
    hh := g
    g := f
    f := e
    e := w32 (d + t1)
    d := c
    c := b
    b := a
    a := w32 (t1 + t2)
  return [w32 (h.getD 0 0 + a), w32 (h.getD 1 0 + b), w32 (h.getD 2 0 + c), w32 (h.getD 3 0 + d),
          w32 (h.getD 4 0 + e), w32 (h.getD 5 0 + f), w32 (h.getD 6 0 + g), w32 (h.getD 7 0 + hh)]

/-- Split a byte list into 64-byte blocks. -/
def toBlocks (l : List Nat) : List (List Nat) :=
  if h : l = [] then []
  else
    have : (l.drop 64).length < l.length := by
      cases l with
      | nil => exact absurd rfl h
      | cons x xs => simp [List.length_drop]; omega
    l.take 64 :: toBlocks (l.drop 64)
termination_by l.length

/-- Big-endian bytes of a 32-bit word. -/
def wordBytes (x : Nat) : List Nat := [x >>> 24 % 256, x >>> 16 % 256, x >>> 8 % 256, x % 256]

/-- SHA-256 digest: bytes in, 32 bytes out. -/
def sha256 (msg : List Nat) : List Nat :=
  (((toBlocks (shaPad msg)).foldl shaCompress sha256H0).map wordBytes).flatten

/-- UTF-8 bytes of a string, as `crypto.createHash(...).update(string)` hashes it. -/
def strBytes (s : String) : List Nat := s.toUTF8.toList.map (fun b => b.toNat)

/-! ### pkce.ts -/

def base64Chars : List Char :=
  "ABCDEFGHIJKLMNOPQRSTUVWXYZabcdefghijklmnopqrstuvwxyz0123456789+/".toList

def b64Char (n : Nat) : Char := base64Chars.getD n 'A'

/-- Standard base64 with `=` padding, as `buffer.toString("base64")` produces. -/
def base64Encode : List Nat → String
  | b1 :: b2 :: b3 :: rest =>
      String.mk [b64Char (b1 >>> 2), b64Char ((b1 &&& 3) <<< 4 ||| b2 >>> 4),
                 b64Char ((b2 &&& 15) <<< 2 ||| b3 >>> 6), b64Char (b3 &&& 63)] ++
      base64Encode rest
  | [b1, b2] =>
      String.mk [b64Char (b1 >>> 2), b64Char ((b1 &&& 3) <<< 4 ||| b2 >>> 4),
                 b64Char ((b2 &&& 15) <<< 2)] ++ "="
  | [b1] =>
      String.mk [b64Char (b1 >>> 2), b64Char ((b1 &&& 3) <<< 4)] ++ "=="
  | [] => ""

/-- Function `base64urlEncode` from pkce.ts: base64, then `+`→`-`, `/`→`_`, strip `=`. -/
def base64urlEncode (buffer : List Nat) : String :=
  (((base64Encode buffer).replace "+" "-").replace "/" "_").replace "=" ""

/-- Function `generateCodeChallenge` from pkce.ts: base64url of the SHA-256 digest of the verifier. -/
def generateCodeChallenge (codeVerifier : String) : String :=
  base64urlEncode (sha256 (strBytes codeVerifier))

/-- One character of the regex class `[A-Za-z0-9\-._~]`. -/
def isUnreservedChar (c : Char) : Bool :=
  ('A' ≤ c && c ≤ 'Z') || ('a' ≤ c && c ≤ 'z') || ('0' ≤ c && c ≤ '9') ||
  c = '-' || c = '.' || c = '_' || c = '~'

/-- The test `/^[A-Za-z0-9\-._~]{43,128}$/.test(codeVerifier)` from pkce.ts. -/
def isValidCodeVerifier (v : String) : Bool :=
  43 ≤ v.length && v.length ≤ 128 && v.data.all isUnreservedChar

/-- Function `verifyPKCE` from pkce.ts. -/
def verifyPKCE (codeVerifier codeChallenge method : String) : Bool :=
  if method ≠ "S256" then false
  else if !isValidCodeVerifier codeVerifier then false
  else generateCodeChallenge codeVerifier == codeChallenge

/-! ### types.ts — the four record kinds -/

structure OAuthClient where
  client_id : String
  client_secret : Option String := none
  client_name : Option String := none
  redirect_uris : List String
  grant_types : List String
  response_types : List String
  token_endpoint_auth_method : String
  client_id_issued_at : Nat
deriving Repr, DecidableEq

/-- Record `PendingAuth`, including the `client_state` field attached by `handleAuthorize`
via the `(pending as any).client_state` cast. -/
structure PendingAuth where
  state : String
  client_id : String
  redirect_uri : String
  scope : String
  code_challenge : String
  code_challenge_method : String
  resource : String
  created_at : Nat
  client_state : String
deriving Repr, DecidableEq

structure AuthorizationCode where
  code : String
  client_id : String
  redirect_uri : String
  scope : String
  code_challenge : String
  code_challenge_method : String
  google_id_token : String
  resource : String
  expires_at : Nat
  used : Bool
deriving Repr, DecidableEq

structure TokenEntry where
  access_token : String
  refresh_token : Option String := none
  client_id : String
  scope : String
  firebase_id_token : String
  firebase_token_expires_at : Nat
  resource : String
  created_at : Nat
deriving Repr, DecidableEq

/-! ### store.ts — `OAuthStore` and its methods -/

def PENDING_AUTH_TTL : Nat := 10 * 60 * 1000

def AUTH_CODE_TTL : Nat := 10 * 60 * 1000

/-- Token lifetime reported on code redemption, seconds (55 minutes). -/
def TOKEN_EXPIRES_IN : Nat := 55 * 60

structure OAuthStore where
  clients : List (String × OAuthClient) := []
  pendingAuths : List (String × PendingAuth) := []
  authCodes : List (String × AuthorizationCode) := []
  tokens : List (String × TokenEntry) := []
  refreshTokenIndex : List (String × String) := []
deriving Repr, DecidableEq

def emptyStore : OAuthStore := {}

def registerClient (client : OAuthClient) (s : OAuthStore) : OAuthStore :=
  { s with clients := setA s.clients client.client_id client }

def getClient (s : OAuthStore) (clientId : String) : Option OAuthClient :=
  getA s.clients clientId

def savePendingAuth (pending : PendingAuth) (s : OAuthStore) : OAuthStore :=
  { s with pendingAuths := setA s.pendingAuths pending.state pending }

def getPendingAuth (s : OAuthStore) (state : String) : Option PendingAuth :=
  getA s.pendingAuths state

def deletePendingAuth (state : String) (s : OAuthStore) : OAuthStore :=
  { s with pendingAuths := delA s.pendingAuths state }

def saveAuthCode (authCode : AuthorizationCode) (s : OAuthStore) : OAuthStore :=
  { s with authCodes := setA s.authCodes authCode.code authCode }

def getAuthCode (s : OAuthStore) (code : String) : Option AuthorizationCode :=
  getA s.authCodes code

/-- Method `markAuthCodeUsed`: the stored record is mutated in place; absent codes are ignored. -/
def markAuthCodeUsed (code : String) (s : OAuthStore) : OAuthStore :=
  match getA s.authCodes code with
  | some authCode => { s with authCodes := setA s.authCodes code { authCode with used := true } }
  | none => s

def deleteAuthCode (code : String) (s : OAuthStore) : OAuthStore :=
  { s with authCodes := delA s.authCodes code }

/-- Method `saveToken`: insert into the primary map and, when the entry carries a truthy
refresh token, into the refresh-token index. -/
def saveToken (entry : TokenEntry) (s : OAuthStore) : OAuthStore :=
  let s' := { s with tokens := setA s.tokens entry.access_token entry }
  if truthy entry.refresh_token then
    { s' with
      refreshTokenIndex := setA s.refreshTokenIndex (entry.refresh_token.getD "") entry.access_token }
  else s'

def getTokenByAccessToken (s : OAuthStore) (accessToken : String) : Option TokenEntry :=
  getA s.tokens accessToken

/-- Method `getTokenByRefreshToken`: indirect lookup through the index; a falsy indexed
access token is treated as a miss (`if (!accessToken) return undefined`). -/
def getTokenByRefreshToken (s : OAuthStore) (refreshToken : String) : Option TokenEntry :=
  match getA s.refreshTokenIndex refreshToken with
  | none => none
  | some accessToken =>
      if accessToken = "" then none else getA s.tokens accessToken

/-- Method `deleteToken`: drop the index entry for the record's own (truthy) refresh token,
then drop the record. -/
def deleteToken (accessToken : String) (s : OAuthStore) : OAuthStore :=
  let s' :=
    match getA s.tokens accessToken with
    | some entry =>
        if truthy entry.refresh_token then
          { s with refreshTokenIndex := delA s.refreshTokenIndex (entry.refresh_token.getD "") }
        else s
    | none => s
  { s' with tokens := delA s'.tokens accessToken }

def deleteTokenByRefreshToken (refreshToken : String) (s : OAuthStore) : OAuthStore :=
  match getA s.refreshTokenIndex refreshToken with
  | some accessToken => if accessToken = "" then s else deleteToken accessToken s
  | none => s

/-- Refresh-token keys of the expired token entries, in iteration order, as
deleted by the token loop of `cleanupExpired`. -/
def expiredRefreshKeys (now : Nat) (tokens : List (String × TokenEntry)) : List String :=
  (tokens.filter (fun t => decide (now > t.2.firebase_token_expires_at))).filterMap
    (fun t => if truthy t.2.refresh_token then some (t.2.refresh_token.getD "") else none)

/-- Method `cleanupExpired`: the periodic sweep. -/
def cleanupExpired (now : Nat) (s : OAuthStore) : OAuthStore :=
  { s with
    pendingAuths := s.pendingAuths.filter (fun p => !decide (now - p.2.created_at > PENDING_AUTH_TTL)),
    authCodes := s.authCodes.filter (fun c => !(decide (now > c.2.expires_at) || c.2.used)),
    tokens := s.tokens.filter (fun t => !decide (now > t.2.firebase_token_expires_at)),
    refreshTokenIndex := (expiredRefreshKeys now s.tokens).foldl delA s.refreshTokenIndex }

/-! ### handlers.ts — responses and handler functions -/

def MCP_SERVER_URL : String := "http://localhost:3001"

def CONSOLE_URL : String := "https://graffiticode.org"

/-- The externally observable HTTP response of a handler: a JSON OAuth error,
a 302 redirect (base URL plus the query parameters set on it, in order), or a
200 JSON token response. -/
inductive Response where
  | errorResp (status : Nat) (error : String) (error_description : Option String)
  | redirectResp (location : String) (query : List (String × String))
  | tokenResp (access_token : String) (token_type : String) (expires_in : Nat)
      (refresh_token : String) (scope : String)
deriving Repr, DecidableEq

/-- Query-parameter view of `GET /oauth/authorize` (`params.get` is `string | null`). -/
structure AuthorizeParams where
  client_id : Option String := none
  redirect_uri : Option String := none
  response_type : Option String := none
  scope : Option String := none
  state : Option String := none
  code_challenge : Option String := none
  code_challenge_method : Option String := none
  resource : Option String := none
deriving Repr, DecidableEq

/-- Handler `handleAuthorize`.  `internalState` stands for the generated
`generateRandomString(32)` value; `now` for `Date.now()`. -/
def handleAuthorize (p : AuthorizeParams) (internalState : String) (now : Nat)
    (s : OAuthStore) : Response × OAuthStore :=
  let scope := orDefault p.scope "graffiticode"
  let resource := orDefault p.resource (MCP_SERVER_URL ++ "/mcp")
  if !truthy p.client_id then
    (.errorResp 400 "invalid_request" (some "Missing client_id"), s)
  else if !truthy p.redirect_uri then
    (.errorResp 400 "invalid_request" (some "Missing redirect_uri"), s)
  else if p.response_type ≠ some "code" then
    (.errorResp 400 "unsupported_response_type" (some "Only 'code' response type is supported"), s)
  else if !truthy p.state then
    (.errorResp 400 "invalid_request" (some "Missing state parameter"), s)
  else if !truthy p.code_challenge || !truthy p.code_challenge_method then
    (.errorResp 400 "invalid_request"
      (some "PKCE required (code_challenge and code_challenge_method)"), s)
  else if p.code_challenge_method ≠ some "S256" then
    (.errorResp 400 "invalid_request" (some "Only S256 code_challenge_method is supported"), s)
  else
    match getClient s (p.client_id.getD "") with
    | none => (.errorResp 400 "invalid_client" (some "Unknown client_id"), s)
    | some client =>
        if client.redirect_uris.length > 0 &&
           !client.redirect_uris.contains (p.redirect_uri.getD "") then
          (.errorResp 400 "invalid_request" (some "Invalid redirect_uri"), s)
        else
          let pending : PendingAuth := {
            state := internalState,
            client_id := p.client_id.getD "",
            redirect_uri := p.redirect_uri.getD "",
            scope := scope,
            code_challenge := p.code_challenge.getD "",
            code_challenge_method := p.code_challenge_method.getD "",
            resource := resource,
            created_at := now,
            client_state := p.state.getD "" }
          (.redirectResp (CONSOLE_URL ++ "/oauth/consent")
            [("callback_url", MCP_SERVER_URL ++ "/oauth/callback"),
             ("state", internalState),
             ("app_name", orDefault client.client_name "MCP Client")],
           savePendingAuth pending s)

/-- Handler `handleCallback`.  `freshCode` stands for the generated
`generateRandomString(64)` authorization-code value; `now` for `Date.now()`. -/
def handleCallback (googleIdToken state error errorDescription : Option String)
    (freshCode : String) (now : Nat) (s : OAuthStore) : Response × OAuthStore :=
  if truthy error then
    let pending := if truthy state then getPendingAuth s (state.getD "") else none
    match pending with
    | some pending =>
        (.redirectResp pending.redirect_uri
          ([("error", error.getD "")] ++
           (if truthy errorDescription then [("error_description", errorDescription.getD "")] else []) ++
           [("state", pending.client_state)]),
         deletePendingAuth (state.getD "") s)
    | none =>
        (.errorResp 400 (error.getD "")
          (if truthy errorDescription then errorDescription else none), s)
  else if !truthy state then
    (.errorResp 400 "invalid_request" (some "Missing state"), s)
  else if !truthy googleIdToken then
    (.errorResp 400 "invalid_request" (some "Missing google_id_token"), s)
  else
    match getPendingAuth s (state.getD "") with
    | none => (.errorResp 400 "invalid_request" (some "Invalid or expired state"), s)
    | some pending =>
        let s := deletePendingAuth (state.getD "") s
        let authCode : AuthorizationCode := {
          code := freshCode,
          client_id := pending.client_id,
          redirect_uri := pending.redirect_uri,
          scope := pending.scope,
          code_challenge := pending.code_challenge,
          code_challenge_method := pending.code_challenge_method,
          google_id_token := googleIdToken.getD "",
          resource := pending.resource,
          expires_at := now + 10 * 60 * 1000,
          used := false }
        (.redirectResp pending.redirect_uri
          [("code", freshCode), ("state", pending.client_state)],
         saveAuthCode authCode s)

/-- Form-body view of `POST /oauth/token` (`body.get` is `string | null`). -/
structure TokenBody where
  grant_type : Option String := none
  code : Option String := none
  redirect_uri : Option String := none
  client_id : Option String := none
  code_verifier : Option String := none
  refresh_token : Option String := none
deriving Repr, DecidableEq

/-- Handler `handleAuthorizationCodeGrant`.  `exchange` stands for the outcome of
`exchangeGoogleTokenForFirebaseToken` (`.ok` = the Firebase ID token it
returned, `.error` = the thrown error's message); `freshAccess`/`freshRefresh`
for the two generated `generateRandomString(64)` values; `now` for `Date.now()`
(the exchange's `expiresAt` is `Date.now() + TOKEN_EXPIRES_IN * 1000`). -/
def handleAuthorizationCodeGrant (body : TokenBody) (exchange : Except String String)
    (freshAccess freshRefresh : String) (now : Nat) (s : OAuthStore) :
    Response × OAuthStore :=
  if !truthy body.code then
    (.errorResp 400 "invalid_request" (some "Missing code"), s)
  else if !truthy body.code_verifier then
    (.errorResp 400 "invalid_request" (some "Missing code_verifier"), s)
  else
    match getAuthCode s (body.code.getD "") with
    | none => (.errorResp 400 "invalid_grant" (some "Invalid or expired authorization code"), s)
    | some authCode =>
        if authCode.used then
          (.errorResp 400 "invalid_grant" (some "Authorization code already used"),
           deleteAuthCode (body.code.getD "") s)
        else if now > authCode.expires_at then
          (.errorResp 400 "invalid_grant" (some "Authorization code expired"),
           deleteAuthCode (body.code.getD "") s)
        else if truthy body.client_id && body.client_id ≠ some authCode.client_id then
          (.errorResp 400 "invalid_grant" (some "client_id mismatch"), s)
        else if truthy body.redirect_uri && body.redirect_uri ≠ some authCode.redirect_uri then
          (.errorResp 400 "invalid_grant" (some "redirect_uri mismatch"), s)
        else if !verifyPKCE (body.code_verifier.getD "") authCode.code_challenge
                  authCode.code_challenge_method then
          (.errorResp 400 "invalid_grant" (some "Invalid code_verifier"), s)
        else
          let s := markAuthCodeUsed (body.code.getD "") s
          match exchange with
          | .ok firebaseIdToken =>
              let tokenEntry : TokenEntry := {
                access_token := freshAccess,
                refresh_token := some freshRefresh,
                client_id := authCode.client_id,
                scope := authCode.scope,
                firebase_id_token := firebaseIdToken,
                firebase_token_expires_at := now + TOKEN_EXPIRES_IN * 1000,
                resource := authCode.resource,
                created_at := now }
              let s := saveToken tokenEntry s
              let s := deleteAuthCode (body.code.getD "") s
              (.tokenResp freshAccess "Bearer" TOKEN_EXPIRES_IN freshRefresh authCode.scope, s)
          | .error msg =>
              (.errorResp 500 "server_error" (some msg), s)

/-- Handler `handleRefreshTokenGrant`.  `freshAccess`/`freshRefresh` stand for the two
generated `generateRandomString(64)` values; `now` for `Date.now()`. -/
def handleRefreshTokenGrant (body : TokenBody) (freshAccess freshRefresh : String)
    (now : Nat) (s : OAuthStore) : Response × OAuthStore :=
  if !truthy body.refresh_token then
    (.errorResp 400 "invalid_request" (some "Missing refresh_token"), s)
  else
    match getTokenByRefreshToken s (body.refresh_token.getD "") with
    | none => (.errorResp 400 "invalid_grant" (some "Invalid refresh_token"), s)
    | some tokenEntry =>
        if truthy body.client_id && body.client_id ≠ some tokenEntry.client_id then
          (.errorResp 400 "invalid_grant" (some "client_id mismatch"), s)
        else if now > tokenEntry.firebase_token_expires_at then
          (.errorResp 400 "invalid_grant" (some "Session expired, please re-authenticate"),
           deleteToken tokenEntry.access_token s)
        else
          let s := deleteToken tokenEntry.access_token s
          let newTokenEntry : TokenEntry := {
            access_token := freshAccess,
            refresh_token := some freshRefresh,
            client_id := tokenEntry.client_id,
            scope := tokenEntry.scope,
            firebase_id_token := tokenEntry.firebase_id_token,
            firebase_token_expires_at := tokenEntry.firebase_token_expires_at,
            resource := tokenEntry.resource,
            created_at := now }
          let s := saveToken newTokenEntry s
          (.tokenResp freshAccess "Bearer"
            ((tokenEntry.firebase_token_expires_at - now) / 1000) freshRefresh
            tokenEntry.scope, s)

/-- Function `getFirebaseTokenFromAccessToken`: the bearer-token resolver used by `/mcp`. -/
def getFirebaseTokenFromAccessToken (accessToken : String) (now : Nat) (s : OAuthStore) :
    Option String × OAuthStore :=
  match getTokenByAccessToken s accessToken with
  | none => (none, s)
  | some tokenEntry =>
      if now > tokenEntry.firebase_token_expires_at then
        (none, deleteToken accessToken s)
      else
        (some tokenEntry.firebase_id_token, s)

/-! ### Consistency of the refresh-token index with the primary token map -/

/-- The spec's index/map consistency: the maps have (JS-`Map`) unique keys, every
index entry `refresh_token → access_token` points at a stored `TokenEntry`
whose `refresh_token` field is that (truthy) key, and every stored `TokenEntry`
with a truthy refresh token is indexed back to its own access token. -/
def tokensIndexConsistent (s : OAuthStore) : Prop :=
  keysNodup s.tokens ∧ keysNodup s.refreshTokenIndex ∧
  (∀ r a, getA s.refreshTokenIndex r = some a →
      r ≠ "" ∧ ∃ e, getA s.tokens a = some e ∧ e.refresh_token = some r) ∧
  (∀ a e r, getA s.tokens a = some e → e.refresh_token = some r → r ≠ "" →
      getA s.refreshTokenIndex r = some a)

/-- The four token-map mutating operations of the Store named by the spec. -/
inductive StoreOp where
  | save (e : TokenEntry)
  | del (accessToken : String)
  | delByRefresh (refreshToken : String)
  | cleanup (now : Nat)
deriving Repr, DecidableEq

def applyOp (s : OAuthStore) : StoreOp → OAuthStore
  | .save e => saveToken e s
  | .del a => deleteToken a s
  | .delByRefresh r => deleteTokenByRefreshToken r s
  | .cleanup now => cleanupExpired now s

/-- Freshness of the tokens in a saved entry: its access token is not yet stored
and its (truthy) refresh token is not yet indexed.  The handlers guarantee this
by drawing both values from `generateRandomString(64)`. -/
def saveOk (s : OAuthStore) (e : TokenEntry) : Bool :=
  (getA s.tokens e.access_token).isNone &&
  (match e.refresh_token with
   | some r => if r = "" then true else (getA s.refreshTokenIndex r).isNone
   | none => true)

def opOk (s : OAuthStore) : StoreOp → Bool
  | .save e => saveOk s e
  | _ => true

def opsOk : OAuthStore → List StoreOp → Bool
  | _, [] => true
  | s, op :: rest => opOk s op && opsOk (applyOp s op) rest

/-- Every stored token entry is keyed by its own access token (true of every
store built by `saveToken`, which uses `entry.access_token` as the map key). -/
def tokensKeyed (s : OAuthStore) : Prop :=
  ∀ a e, getA s.tokens a = some e → e.access_token = a

/-! ### Concrete records used in witnesses and counterexamples -/

def exampleVerifier : String := "aaaaaaaaaaaaaaaaaaaaaaaaaaaaaaaaaaaaaaaaaaa"

def stalePending : PendingAuth :=
  { state := "s1", client_id := "client-1", redirect_uri := "https://client.example/cb",
    scope := "graffiticode", code_challenge := "challenge", code_challenge_method := "S256",
    resource := "http://localhost:3001/mcp", created_at := 0, client_state := "abc" }

def staleStore : OAuthStore := { emptyStore with pendingAuths := [("s1", stalePending)] }

def c6Params : AuthorizeParams :=
  { client_id := some "client-1", redirect_uri := some "https://client.example/cb",
    response_type := some "token", state := some "st", code_challenge := some "ch",
    code_challenge_method := some "plain" }

def exampleAuthCode : AuthorizationCode :=
  { code := "code-1", client_id := "client-1", redirect_uri := "https://client.example/cb",
    scope := "graffiticode", code_challenge := generateCodeChallenge exampleVerifier,
    code_challenge_method := "S256", google_id_token := "gid", resource := "res",
    expires_at := 600000, used := false }

def codeStore : OAuthStore := saveAuthCode exampleAuthCode emptyStore

def codeBody : TokenBody :=
  { grant_type := some "authorization_code", code := some "code-1",
    code_verifier := some exampleVerifier }

def refreshEntry : TokenEntry :=
  { access_token := "acc-1", refresh_token := some "ref-1", client_id := "client-1",
    scope := "graffiticode", firebase_id_token := "fb-1",
    firebase_token_expires_at := 3300000, resource := "res", created_at := 0 }

def refreshStore : OAuthStore := saveToken refreshEntry emptyStore

def refreshBody : TokenBody :=
  { grant_type := some "refresh_token", refresh_token := some "ref-1" }

def cE1 : TokenEntry :=
  { access_token := "a1", refresh_token := some "r", client_id := "c",
    scope := "graffiticode", firebase_id_token := "f1", firebase_token_expires_at := 100,
    resource := "res", created_at := 0 }

def cE2 : TokenEntry :=
  { access_token := "a2", refresh_token := some "r", client_id := "c",
    scope := "graffiticode", firebase_id_token := "f2", firebase_token_expires_at := 100,
    resource := "res", created_at := 0 }

/-! ### Lemmas about the association-list map operations -/

theorem getA_setA_self {V : Type} (m : List (String × V)) (k : String) (v : V) :
    getA (setA m k v) k = some v := by
  induction m with
  | nil => simp [setA, getA]
  | cons p rest ih =>
    obtain ⟨k', v'⟩ := p
    by_cases h : k' = k
    · simp [setA, h, getA]
    · simp [setA, h, getA, ih]

theorem getA_setA_ne {V : Type} (m : List (String × V)) (k k' : String) (v : V)
    (h : k' ≠ k) : getA (setA m k v) k' = getA m k' := by
  have h' : ¬ k = k' := Ne.symm h
  induction m with
  | nil => simp [setA, getA, h']
  | cons p rest ih =>
    obtain ⟨k₀, v₀⟩ := p
    by_cases hk : k₀ = k
    · subst hk
      simp [setA, getA, h']
    · simp only [setA, if_neg hk, getA]
      by_cases hk' : k₀ = k'
      · simp [hk']
      · simp [hk', ih]

theorem getA_delA_ne {V : Type} (m : List (String × V)) (k k' : String)
    (h : k' ≠ k) : getA (delA m k) k' = getA m k' := by
  have h' : ¬ k = k' := Ne.symm h
  induction m with
  | nil => simp [delA]
  | cons p rest ih =>
    obtain ⟨k₀, v₀⟩ := p
    by_cases hk : k₀ = k
    · subst hk
      simp [delA, getA, h']
    · simp only [delA, if_neg hk, getA]
      by_cases hk' : k₀ = k'
      · simp [hk']
      · simp [hk', ih]

theorem getA_eq_some_mem {V : Type} {m : List (String × V)} {k : String} {v : V}
    (h : getA m k = some v) : (k, v) ∈ m := by
  induction m with
  | nil => simp [getA] at h
  | cons p rest ih =>
    obtain ⟨k₀, v₀⟩ := p
    by_cases hk : k₀ = k
    · subst hk
      have hv : v₀ = v := by simpa [getA] using h
      subst hv
      exact List.mem_cons_self _ _
    · simp only [getA, if_neg hk] at h
      exact List.mem_cons_of_mem _ (ih h)

theorem getA_eq_none_of_not_mem_keys {V : Type} {m : List (String × V)} {k : String}
    (h : k ∉ m.map Prod.fst) : getA m k = none := by
  induction m with
  | nil => simp [getA]
  | cons p rest ih =>
    obtain ⟨k₀, v₀⟩ := p
    simp only [List.map_cons, List.mem_cons] at h
    push_neg at h
    simp only [getA, if_neg (Ne.symm h.1)]
    exact ih h.2

theorem mem_getA_of_nodup {V : Type} {m : List (String × V)} {k : String} {v : V}
    (hn : keysNodup m) (h : (k, v) ∈ m) : getA m k = some v := by
  induction m with
  | nil => simp at h
  | cons p rest ih =>
    obtain ⟨k₀, v₀⟩ := p
    simp only [keysNodup, List.map_cons, List.nodup_cons] at hn
    rcases List.mem_cons.mp h with h1 | h2
    · simp only [Prod.mk.injEq] at h1
      obtain ⟨rfl, rfl⟩ := h1
      simp [getA]
    · by_cases hk : k₀ = k
      · subst hk
        exact absurd (List.mem_map_of_mem Prod.fst h2) hn.1
      · simp only [getA, if_neg hk]
        exact ih hn.2 h2

theorem delA_sublist {V : Type} (m : List (String × V)) (k : String) :
    (delA m k).Sublist m := by
  induction m with
  | nil => simp [delA]
  | cons p rest ih =>
    obtain ⟨k₀, v₀⟩ := p
    by_cases hk : k₀ = k
    · simp only [delA, if_pos hk]
      exact List.sublist_cons_self _ _
    · simp only [delA, if_neg hk]
      exact List.Sublist.cons₂ _ ih

theorem setA_keys {V : Type} (m : List (String × V)) (k : String) (v : V) :
    (setA m k v).map Prod.fst =
      if k ∈ m.map Prod.fst then m.map Prod.fst else m.map Prod.fst ++ [k] := by
  induction m with
  | nil => simp [setA]
  | cons q tl ihq =>
    obtain ⟨k₁, v₁⟩ := q
    by_cases hk₁ : k₁ = k
    · subst hk₁
      simp [setA]
    · simp only [setA, if_neg hk₁, List.map_cons, ihq, List.mem_cons]
      have hne : ¬ k = k₁ := Ne.symm hk₁
      by_cases hmem : k ∈ tl.map Prod.fst <;> simp [hmem, hne]

theorem keysNodup_setA {V : Type} {m : List (String × V)} (k : String) (v : V)
    (hn : keysNodup m) : keysNodup (setA m k v) := by
  unfold keysNodup at hn ⊢
  rw [setA_keys]
  by_cases hmem : k ∈ m.map Prod.fst
  · simpa [hmem] using hn
  · simp only [hmem, if_false]
    rw [List.nodup_append]
    exact ⟨hn, List.nodup_singleton k, by simpa using hmem⟩

theorem keysNodup_delA {V : Type} {m : List (String × V)} (k : String)
    (hn : keysNodup m) : keysNodup (delA m k) := by
  unfold keysNodup at hn ⊢
  exact List.Nodup.sublist (List.Sublist.map Prod.fst (delA_sublist m k)) hn

theorem getA_delA_self {V : Type} {m : List (String × V)} (k : String)
    (hn : keysNodup m) : getA (delA m k) k = none := by
  induction m with
  | nil => simp [delA, getA]
  | cons p rest ih =>
    obtain ⟨k₀, v₀⟩ := p
    simp only [keysNodup, List.map_cons, List.nodup_cons] at hn
    by_cases hk : k₀ = k
    · subst hk
      simp only [delA, if_pos rfl]
      exact getA_eq_none_of_not_mem_keys hn.1
    · simp only [delA, if_neg hk, getA, if_neg hk]
      exact ih hn.2

theorem keysNodup_filter {V : Type} {m : List (String × V)} (p : String × V → Bool)
    (hn : keysNodup m) : keysNodup (m.filter p) := by
  unfold keysNodup at hn ⊢
  exact List.Nodup.sublist (List.Sublist.map Prod.fst (List.filter_sublist m)) hn

theorem getA_filter {V : Type} {m : List (String × V)} (p : String × V → Bool) (k : String)
    (hn : keysNodup m) :
    getA (m.filter p) k = match getA m k with
      | some v => if p (k, v) then some v else none
      | none => none := by
  induction m with
  | nil => simp [getA]
  | cons q rest ih =>
    obtain ⟨k₀, v₀⟩ := q
    simp only [keysNodup, List.map_cons, List.nodup_cons] at hn
    rw [List.filter_cons]
    by_cases hk : k₀ = k
    · subst hk
      by_cases hp : p (k₀, v₀) = true
      · rw [if_pos hp]
        simp [getA, hp]
      · rw [if_neg hp]
        rw [ih hn.2, getA_eq_none_of_not_mem_keys hn.1]
        simp [getA, hp]
    · by_cases hp : p (k₀, v₀) = true
      · rw [if_pos hp]
        simp only [getA, if_neg hk]
        exact ih hn.2
      · rw [if_neg hp]
        rw [ih hn.2]
        simp [getA, hk]

theorem delA_eq_of_getA_none {V : Type} {m : List (String × V)} {k : String}
    (h : getA m k = none) : delA m k = m := by
  induction m with
  | nil => simp [delA]
  | cons p rest ih =>
    obtain ⟨k₀, v₀⟩ := p
    by_cases hk : k₀ = k
    · subst hk
      simp [getA] at h
    · simp only [getA, if_neg hk] at h
      simp [delA, hk, ih h]

theorem keysNodup_delAll {V : Type} {m : List (String × V)} (ks : List String)
    (hn : keysNodup m) : keysNodup (ks.foldl delA m) := by
  induction ks generalizing m with
  | nil => simpa using hn
  | cons k tl ih => exact ih (keysNodup_delA k hn)

theorem getA_delAll {V : Type} {m : List (String × V)} (ks : List String) (k : String)
    (hn : keysNodup m) :
    getA (ks.foldl delA m) k = if k ∈ ks then none else getA m k := by
  induction ks generalizing m with
  | nil => simp
  | cons k₀ tl ih =>
    simp only [List.foldl_cons, List.mem_cons]
    rw [ih (keysNodup_delA k₀ hn)]
    by_cases hk : k = k₀
    · subst hk
      by_cases hmem : k ∈ tl
      · simp [hmem]
      · simp [hmem, getA_delA_self k hn]
    · by_cases hmem : k ∈ tl
      · simp [hmem, hk]
      · simp [hmem, hk, getA_delA_ne m k₀ k hk]

theorem consistent_saveToken {s : OAuthStore} {e : TokenEntry}
    (hwf : tokensIndexConsistent s)
    (ha : getA s.tokens e.access_token = none)
    (hr : ∀ r, e.refresh_token = some r → r ≠ "" → getA s.refreshTokenIndex r = none) :
    tokensIndexConsistent (saveToken e s) := by
  obtain ⟨hn1, hn2, hc1, hc2⟩ := hwf
  by_cases htr : truthy e.refresh_token = true
  · obtain ⟨re, hre⟩ : ∃ re, e.refresh_token = some re := by
      cases hrt : e.refresh_token with
      | none => rw [hrt] at htr; simp [truthy] at htr
      | some r => exact ⟨r, rfl⟩
    have hreNe : re ≠ "" := by
      rw [hre] at htr
      simpa [truthy] using htr
    have hidx : getA s.refreshTokenIndex re = none := hr re hre hreNe
    have htr' : truthy (some re) = true := by simp [truthy, hreNe]
    have hsave : saveToken e s =
        { s with tokens := setA s.tokens e.access_token e,
                 refreshTokenIndex := setA s.refreshTokenIndex re e.access_token } := by
      simp [saveToken, hre, htr']
    rw [hsave]
    refine ⟨keysNodup_setA _ _ hn1, keysNodup_setA _ _ hn2, ?_, ?_⟩
    · intro r a hra
      by_cases hrr : r = re
      · subst hrr
        rw [getA_setA_self] at hra
        obtain rfl : e.access_token = a := by simpa using hra
        exact ⟨hreNe, e, by rw [getA_setA_self], hre⟩
      · rw [getA_setA_ne _ _ _ _ hrr] at hra
        obtain ⟨hne, e', he', hre'⟩ := hc1 r a hra
        refine ⟨hne, e', ?_, hre'⟩
        have haa : a ≠ e.access_token := by
          intro hEq
          rw [hEq, ha] at he'
          exact Option.noConfusion he'
        rw [getA_setA_ne _ _ _ _ haa, he']
    · intro a e'' r'' hget hrt hne
      by_cases haa : a = e.access_token
      · subst haa
        rw [getA_setA_self] at hget
        obtain rfl : e = e'' := by simpa using hget
        rw [hre] at hrt
        obtain rfl : re = r'' := by simpa using hrt
        rw [getA_setA_self]
      · rw [getA_setA_ne _ _ _ _ haa] at hget
        have hold := hc2 a e'' r'' hget hrt hne
        have hrr : r'' ≠ re := by
          intro hEq
          rw [hEq, hidx] at hold
          exact Option.noConfusion hold
        rw [getA_setA_ne _ _ _ _ hrr]
        exact hold
  · have hsave : saveToken e s = { s with tokens := setA s.tokens e.access_token e } := by
      simp [saveToken, htr]
    rw [hsave]
    refine ⟨keysNodup_setA _ _ hn1, hn2, ?_, ?_⟩
    · intro r a hra
      obtain ⟨hne, e', he', hre'⟩ := hc1 r a hra
      refine ⟨hne, e', ?_, hre'⟩
      have haa : a ≠ e.access_token := by
        intro hEq
        rw [hEq, ha] at he'
        exact Option.noConfusion he'
      rw [getA_setA_ne _ _ _ _ haa, he']
    · intro a e'' r'' hget hrt hne
      by_cases haa : a = e.access_token
      · subst haa
        rw [getA_setA_self] at hget
        obtain rfl : e = e'' := by simpa using hget
        rw [hrt] at htr
        simp only [truthy, Bool.not_eq_true'] at htr
        exact absurd (by simpa using htr) hne
      · rw [getA_setA_ne _ _ _ _ haa] at hget
        exact hc2 a e'' r'' hget hrt hne

theorem consistent_deleteToken {s : OAuthStore} (a : String)
    (hwf : tokensIndexConsistent s) : tokensIndexConsistent (deleteToken a s) := by
  obtain ⟨hn1, hn2, hc1, hc2⟩ := hwf
  cases hget : getA s.tokens a with
  | none =>
    have hid : deleteToken a s = s := by
      simp [deleteToken, hget, delA_eq_of_getA_none hget]
    rw [hid]
    exact ⟨hn1, hn2, hc1, hc2⟩
  | some entry =>
    by_cases htr : truthy entry.refresh_token = true
    · obtain ⟨re, hre⟩ : ∃ re, entry.refresh_token = some re := by
        cases hrt : entry.refresh_token with
        | none => rw [hrt] at htr; simp [truthy] at htr
        | some r => exact ⟨r, rfl⟩
      have hreNe : re ≠ "" := by
        rw [hre] at htr
        simpa [truthy] using htr
      have htr' : truthy (some re) = true := by simp [truthy, hreNe]
      have hdel : deleteToken a s =
          { s with tokens := delA s.tokens a,
                   refreshTokenIndex := delA s.refreshTokenIndex re } := by
        simp [deleteToken, hget, hre, htr']
      rw [hdel]
      refine ⟨keysNodup_delA _ hn1, keysNodup_delA _ hn2, ?_, ?_⟩
      · intro r a' hra
        by_cases hrr : r = re
        · subst hrr
          rw [getA_delA_self _ hn2] at hra
          exact Option.noConfusion hra
        · rw [getA_delA_ne _ _ _ hrr] at hra
          obtain ⟨hne, e', he', hre'⟩ := hc1 r a' hra
          refine ⟨hne, e', ?_, hre'⟩
          have haa : a' ≠ a := by
            intro hEq
            rw [hEq, hget] at he'
            obtain rfl : entry = e' := by simpa using he'
            rw [hre] at hre'
            obtain rfl : re = r := by simpa using hre'
            exact hrr rfl
          rw [getA_delA_ne _ _ _ haa, he']
      · intro a' e'' r'' hget' hrt hne
        have haa : a' ≠ a := by
          intro hEq
          rw [hEq, getA_delA_self _ hn1] at hget'
          exact Option.noConfusion hget'
        rw [getA_delA_ne _ _ _ haa] at hget'
        have hold := hc2 a' e'' r'' hget' hrt hne
        have hrr : r'' ≠ re := by
          intro hEq
          have hacc := hc2 a entry re hget hre hreNe
          rw [hEq] at hold
          rw [hacc] at hold
          exact haa (Option.some.inj hold.symm)
        rw [getA_delA_ne _ _ _ hrr]
        exact hold
    · have hdel : deleteToken a s = { s with tokens := delA s.tokens a } := by
        simp [deleteToken, hget, htr]
      rw [hdel]
      refine ⟨keysNodup_delA _ hn1, hn2, ?_, ?_⟩
      · intro r a' hra
        obtain ⟨hne, e', he', hre'⟩ := hc1 r a' hra
        refine ⟨hne, e', ?_, hre'⟩
        have haa : a' ≠ a := by
          intro hEq
          rw [hEq, hget] at he'
          obtain rfl : entry = e' := by simpa using he'
          rw [hre'] at htr
          simp only [truthy, Bool.not_eq_true'] at htr
          exact hne (by simpa using htr)
        rw [getA_delA_ne _ _ _ haa, he']
      · intro a' e'' r'' hget' hrt hne
        have haa : a' ≠ a := by
          intro hEq
          rw [hEq, getA_delA_self _ hn1] at hget'
          exact Option.noConfusion hget'
        rw [getA_delA_ne _ _ _ haa] at hget'
        exact hc2 a' e'' r'' hget' hrt hne

theorem consistent_deleteTokenByRefreshToken {s : OAuthStore} (r : String)
    (hwf : tokensIndexConsistent s) :
    tokensIndexConsistent (deleteTokenByRefreshToken r s) := by
  unfold deleteTokenByRefreshToken
  cases hget : getA s.refreshTokenIndex r with
  | none => exact hwf
  | some a =>
    by_cases ha : a = ""
    · simpa [ha] using hwf
    · simpa [ha] using consistent_deleteToken a hwf

theorem mem_expiredRefreshKeys {now : Nat} {tokens : List (String × TokenEntry)} {r : String} :
    r ∈ expiredRefreshKeys now tokens ↔
      ∃ a e, (a, e) ∈ tokens ∧ now > e.firebase_token_expires_at ∧
        e.refresh_token = some r ∧ r ≠ "" := by
  unfold expiredRefreshKeys
  rw [List.mem_filterMap]
  constructor
  · rintro ⟨⟨a, e⟩, hmem, hval⟩
    rw [List.mem_filter] at hmem
    refine ⟨a, e, hmem.1, by simpa using hmem.2, ?_⟩
    cases hrt : e.refresh_token with
    | none => rw [hrt] at hval; simp [truthy] at hval
    | some r₀ =>
      rw [hrt] at hval
      by_cases hr₀ : r₀ = ""
      · rw [hr₀] at hval
        simp [truthy] at hval
      · simp only [truthy, Option.getD_some] at hval
        rw [if_pos (by simpa using hr₀)] at hval
        have hv : r₀ = r := by simpa using hval
        exact ⟨congrArg some hv, fun hEq => hr₀ (hv.trans hEq)⟩
  · rintro ⟨a, e, hmem, hexp, hrt, hne⟩
    refine ⟨(a, e), ?_, ?_⟩
    · rw [List.mem_filter]
      exact ⟨hmem, by simpa using hexp⟩
    · simp [hrt, truthy, hne]

theorem consistent_cleanupExpired {s : OAuthStore} (now : Nat)
    (hwf : tokensIndexConsistent s) : tokensIndexConsistent (cleanupExpired now s) := by
  obtain ⟨hn1, hn2, hc1, hc2⟩ := hwf
  unfold cleanupExpired
  refine ⟨keysNodup_filter _ hn1, keysNodup_delAll _ hn2, ?_, ?_⟩
  · intro r a hra
    simp only at hra
    rw [getA_delAll _ _ hn2] at hra
    by_cases hmem : r ∈ expiredRefreshKeys now s.tokens
    · rw [if_pos hmem] at hra
      exact Option.noConfusion hra
    · rw [if_neg hmem] at hra
      obtain ⟨hne, e', he', hre'⟩ := hc1 r a hra
      refine ⟨hne, e', ?_, hre'⟩
      simp only
      rw [getA_filter _ _ hn1, he']
      have hkeep : ¬ now > e'.firebase_token_expires_at := by
        intro hexp
        exact hmem (mem_expiredRefreshKeys.mpr ⟨a, e', getA_eq_some_mem he', hexp, hre', hne⟩)
      simp [hkeep]
  · intro a e r hget hrt hne
    simp only at hget ⊢
    rw [getA_filter _ _ hn1] at hget
    cases hget₀ : getA s.tokens a with
    | none =>
      rw [hget₀] at hget
      exact Option.noConfusion hget
    | some e₀ =>
      rw [hget₀] at hget
      dsimp only at hget
      by_cases hkeep : (!decide (now > e₀.firebase_token_expires_at)) = true
      · rw [if_pos hkeep] at hget
        obtain rfl : e₀ = e := by simpa using hget
        have hold := hc2 a e₀ r hget₀ hrt hne
        rw [getA_delAll _ _ hn2]
        have hmem : r ∉ expiredRefreshKeys now s.tokens := by
          intro hmem
          obtain ⟨a', e', hmem', hexp', hrt', _⟩ := mem_expiredRefreshKeys.mp hmem
          have hget' := mem_getA_of_nodup hn1 hmem'
          have hidx' := hc2 a' e' r hget' hrt' hne
          rw [hold] at hidx'
          obtain rfl : a = a' := Option.some.inj hidx'
          rw [hget₀] at hget'
          obtain rfl : e₀ = e' := by simpa using hget'
          simp only [Bool.not_eq_true', decide_eq_false_iff_not] at hkeep
          exact hkeep hexp'
        rw [if_neg hmem]
        exact hold
      · rw [if_neg hkeep] at hget
        exact Option.noConfusion hget

theorem consistent_applyOp {s : OAuthStore} {op : StoreOp}
    (hwf : tokensIndexConsistent s) (hop : opOk s op = true) :
    tokensIndexConsistent (applyOp s op) := by
  cases op with
  | save e =>
    simp only [opOk, saveOk, Bool.and_eq_true, Option.isNone_iff_eq_none] at hop
    refine consistent_saveToken hwf hop.1 ?_
    intro r hr hne
    have h2 := hop.2
    rw [hr] at h2
    dsimp only at h2
    rw [if_neg hne] at h2
    simpa [Option.isNone_iff_eq_none] using h2
  | del a => exact consistent_deleteToken a hwf
  | delByRefresh r => exact consistent_deleteTokenByRefreshToken r hwf
  | cleanup now => exact consistent_cleanupExpired now hwf

theorem consistent_applyOps {s : OAuthStore} {ops : List StoreOp}
    (hwf : tokensIndexConsistent s) (hops : opsOk s ops = true) :
    tokensIndexConsistent (ops.foldl applyOp s) := by
  induction ops generalizing s with
  | nil => simpa using hwf
  | cons op rest ih =>
    simp only [opsOk, Bool.and_eq_true] at hops
    exact ih (consistent_applyOp hwf hops.1) hops.2

theorem saveToken_tokens (s : OAuthStore) (e : TokenEntry) :
    (saveToken e s).tokens = setA s.tokens e.access_token e := by
  unfold saveToken
  by_cases htr : truthy e.refresh_token = true <;> simp [htr]

theorem saveToken_index (s : OAuthStore) (e : TokenEntry) :
    (saveToken e s).refreshTokenIndex =
      if truthy e.refresh_token = true then
        setA s.refreshTokenIndex (e.refresh_token.getD "") e.access_token
      else s.refreshTokenIndex := by
  unfold saveToken
  by_cases htr : truthy e.refresh_token = true <;> simp [htr]

theorem keyed_saveToken {s : OAuthStore} (e : TokenEntry) (hk : tokensKeyed s) :
    tokensKeyed (saveToken e s) := by
  intro a e' hget
  rw [saveToken_tokens] at hget
  by_cases ha : a = e.access_token
  · subst ha
    rw [getA_setA_self] at hget
    obtain rfl : e = e' := by simpa using hget
    rfl
  · rw [getA_setA_ne _ _ _ _ ha] at hget
    exact hk a e' hget

theorem deleteToken_tokens (s : OAuthStore) (a0 : String) :
    (deleteToken a0 s).tokens = delA s.tokens a0 := by
  unfold deleteToken
  cases hget₀ : getA s.tokens a0 with
  | none => simp
  | some entry => by_cases htr : truthy entry.refresh_token = true <;> simp [htr]

theorem keyed_deleteToken {s : OAuthStore} (a0 : String) (hn : keysNodup s.tokens)
    (hk : tokensKeyed s) : tokensKeyed (deleteToken a0 s) := by
  intro a e hget
  rw [deleteToken_tokens] at hget
  by_cases ha : a = a0
  · subst ha
    rw [getA_delA_self _ hn] at hget
    exact Option.noConfusion hget
  · rw [getA_delA_ne _ _ _ ha] at hget
    exact hk a e hget

theorem keyed_deleteTokenByRefreshToken {s : OAuthStore} (r : String)
    (hn : keysNodup s.tokens) (hk : tokensKeyed s) :
    tokensKeyed (deleteTokenByRefreshToken r s) := by
  unfold deleteTokenByRefreshToken
  cases hget : getA s.refreshTokenIndex r with
  | none => exact hk
  | some a =>
    by_cases ha : a = ""
    · simpa [ha] using hk
    · simpa [ha] using keyed_deleteToken a hn hk

theorem keyed_cleanupExpired {s : OAuthStore} (now : Nat) (hn : keysNodup s.tokens)
    (hk : tokensKeyed s) : tokensKeyed (cleanupExpired now s) := by
  intro a e hget
  simp only [cleanupExpired] at hget
  rw [getA_filter _ _ hn] at hget
  cases hget₀ : getA s.tokens a with
  | none =>
    rw [hget₀] at hget
    exact Option.noConfusion hget
  | some e₀ =>
    rw [hget₀] at hget
    dsimp only at hget
    by_cases hkeep : (!decide (now > e₀.firebase_token_expires_at)) = true
    · rw [if_pos hkeep] at hget
      obtain rfl : e₀ = e := by simpa using hget
      exact hk a e₀ hget₀
    · rw [if_neg hkeep] at hget
      exact Option.noConfusion hget

theorem keyed_applyOps {s : OAuthStore} {ops : List StoreOp}
    (hwf : tokensIndexConsistent s) (hk : tokensKeyed s) (hops : opsOk s ops = true) :
    tokensKeyed (ops.foldl applyOp s) := by
  induction ops generalizing s with
  | nil => simpa using hk
  | cons op rest ih =>
    simp only [opsOk, Bool.and_eq_true] at hops
    refine ih (consistent_applyOp hwf hops.1) ?_ hops.2
    cases op with
    | save e => exact keyed_saveToken e hk
    | del a => exact keyed_deleteToken a hwf.1 hk
    | delByRefresh r => exact keyed_deleteTokenByRefreshToken r hwf.1 hk
    | cleanup now => exact keyed_cleanupExpired now hwf.1 hk

theorem keyed_emptyStore : tokensKeyed emptyStore := by
  intro a e hget
  simp [emptyStore, getA] at hget

theorem consistent_emptyStore : tokensIndexConsistent emptyStore := by
  refine ⟨by simp [emptyStore, keysNodup], by simp [emptyStore, keysNodup], ?_, ?_⟩
  · intro r a hra
    simp [emptyStore, getA] at hra
  · intro a e r hget
    simp [emptyStore, getA] at hget

/-! ### PKCE lemmas and the claim theorems -/

theorem isUnreservedChar_iff (ch : Char) :
    isUnreservedChar ch = true ↔
      (('A' ≤ ch ∧ ch ≤ 'Z') ∨ ('a' ≤ ch ∧ ch ≤ 'z') ∨ ('0' ≤ ch ∧ ch ≤ '9') ∨
       ch = '-' ∨ ch = '.' ∨ ch = '_' ∨ ch = '~') := by
  unfold isUnreservedChar
  simp only [Bool.or_eq_true, Bool.and_eq_true, decide_eq_true_eq]
  tauto

theorem isValidCodeVerifier_iff (v : String) :
    isValidCodeVerifier v = true ↔
      (43 ≤ v.length ∧ v.length ≤ 128 ∧
       ∀ ch ∈ v.data, ('A' ≤ ch ∧ ch ≤ 'Z') ∨ ('a' ≤ ch ∧ ch ≤ 'z') ∨
         ('0' ≤ ch ∧ ch ≤ '9') ∨ ch = '-' ∨ ch = '.' ∨ ch = '_' ∨ ch = '~') := by
  unfold isValidCodeVerifier
  simp only [Bool.and_eq_true, decide_eq_true_eq, List.all_eq_true]
  constructor
  · rintro ⟨⟨h1, h2⟩, h3⟩
    exact ⟨h1, h2, fun ch hch => (isUnreservedChar_iff ch).mp (h3 ch hch)⟩
  · rintro ⟨h1, h2, h3⟩
    exact ⟨⟨h1, h2⟩, fun ch hch => (isUnreservedChar_iff ch).mpr (h3 ch hch)⟩

theorem verifyPKCE_self {v : String} (h : isValidCodeVerifier v = true) :
    verifyPKCE v (generateCodeChallenge v) "S256" = true := by
  unfold verifyPKCE
  simp [h]

/-- C5: `verifyPKCE` returns false whenever the method is not exactly "S256",
false whenever the verifier is not 43 to 128 characters drawn from the
unreserved class, and otherwise returns true exactly when
`generateCodeChallenge` of the verifier equals the challenge. -/
theorem C5_verifyPKCE_functional_correctness (v c m : String) :
    verifyPKCE v c m = true ↔
      (m = "S256" ∧ 43 ≤ v.length ∧ v.length ≤ 128 ∧
       (∀ ch ∈ v.data, ('A' ≤ ch ∧ ch ≤ 'Z') ∨ ('a' ≤ ch ∧ ch ≤ 'z') ∨
         ('0' ≤ ch ∧ ch ≤ '9') ∨ ch = '-' ∨ ch = '.' ∨ ch = '_' ∨ ch = '~') ∧
       generateCodeChallenge v = c) := by
  unfold verifyPKCE
  by_cases hm : m = "S256"
  · subst hm
    rw [if_neg (by simp)]
    by_cases hv : isValidCodeVerifier v = true
    · rw [if_neg (by simp [hv])]
      obtain ⟨h1, h2, h3⟩ := (isValidCodeVerifier_iff v).mp hv
      simp only [beq_iff_eq, true_and, h1, h2]
      constructor
      · intro hc
        exact ⟨h3, hc⟩
      · intro hc
        exact hc.2
    · rw [if_pos (by simp [hv])]
      simp only [Bool.false_eq_true, false_iff]
      intro hcon
      exact absurd ((isValidCodeVerifier_iff v).mpr ⟨hcon.2.1, hcon.2.2.1, hcon.2.2.2.1⟩) hv
  · simp [hm]

/-- C1 (amended): with state and google id token present and no error parameter,
`handleCallback` fails with 400 invalid_request exactly when no
PendingAuthorization is stored under the state; the lookup performs no TTL
check, so any stored pending authorization, however old, is resolved into an
authorization code and a redirect. -/
theorem C1_callback_lookup_no_ttl_check (s : OAuthStore) (st g fc : String) (now : Nat)
    (hst : st ≠ "") (hg : g ≠ "") :
    ((handleCallback (some g) (some st) none none fc now s).1 =
        Response.errorResp 400 "invalid_request" (some "Invalid or expired state") ↔
      getPendingAuth s st = none) ∧
    (getPendingAuth s st = none → (handleCallback (some g) (some st) none none fc now s).2 = s) ∧
    (∀ p, getPendingAuth s st = some p →
      (handleCallback (some g) (some st) none none fc now s).1 =
        Response.redirectResp p.redirect_uri [("code", fc), ("state", p.client_state)] ∧
      getAuthCode (handleCallback (some g) (some st) none none fc now s).2 fc =
        some { code := fc, client_id := p.client_id, redirect_uri := p.redirect_uri,
               scope := p.scope, code_challenge := p.code_challenge,
               code_challenge_method := p.code_challenge_method, google_id_token := g,
               resource := p.resource, expires_at := now + 10 * 60 * 1000, used := false }) := by
  unfold handleCallback
  cases hp : getPendingAuth s st with
  | none => simp [truthy, hst, hg, hp]
  | some p =>
    simp [truthy, hst, hg, hp, getAuthCode, saveAuthCode, deletePendingAuth, getA_setA_self]

/-- C1 counterexample: at `now = 660000` the pending authorization created at 0
is 11 minutes old, more than the 10-minute TTL, and no sweep has run; yet
`handleCallback` does not fail with 400 invalid_request: it mints an
AuthorizationCode and redirects with a code. -/
theorem C1_counterexample :
    660000 - stalePending.created_at > PENDING_AUTH_TTL ∧
    (handleCallback (some "gid") (some "s1") none none "code-1" 660000 staleStore).1 =
      Response.redirectResp "https://client.example/cb" [("code", "code-1"), ("state", "abc")] ∧
    getAuthCode (handleCallback (some "gid") (some "s1") none none "code-1" 660000 staleStore).2
        "code-1" =
      some { code := "code-1", client_id := "client-1",
             redirect_uri := "https://client.example/cb", scope := "graffiticode",
             code_challenge := "challenge", code_challenge_method := "S256",
             google_id_token := "gid", resource := "http://localhost:3001/mcp",
             expires_at := 1260000, used := false } := by
  refine ⟨by decide, rfl, rfl⟩

theorem C1_witness :
    ("s" : String) ≠ "" ∧ ("g" : String) ≠ "" ∧
    (handleCallback (some "g") (some "s") none none "c" 0 emptyStore).1 =
      Response.errorResp 400 "invalid_request" (some "Invalid or expired state") :=
  ⟨by decide, by decide,
    ((C1_callback_lookup_no_ttl_check emptyStore "s" "g" "c" 0 (by decide) (by decide)).1).mpr rfl⟩

/-- C6 counterexample: an authorize request with `code_challenge_method`
present and equal to "plain" but `response_type` equal to "token" is rejected
with error code `unsupported_response_type`, not `invalid_request` as the
claim states (the response_type check runs first). -/
theorem C6_counterexample :
    (handleAuthorize c6Params "internal-state" 0 emptyStore).1 =
      Response.errorResp 400 "unsupported_response_type"
        (some "Only 'code' response type is supported") ∧
    ("unsupported_response_type" : String) ≠ "invalid_request" := by
  refine ⟨rfl, by decide⟩

/-- C6 (amended): every authorize request whose `code_challenge_method` is
present and different from "S256" is answered with HTTP 400 and a JSON error,
never a redirect, and the store is unchanged; when `response_type` is "code",
the error code is `invalid_request`. -/
theorem C6_authorize_rejects_non_s256 (p : AuthorizeParams) (ist : String) (now : Nat)
    (s : OAuthStore) (mth : String) (hmth : p.code_challenge_method = some mth)
    (hne : mth ≠ "S256") :
    (∃ err d, (handleAuthorize p ist now s).1 = Response.errorResp 400 err d) ∧
    (handleAuthorize p ist now s).2 = s ∧
    (p.response_type = some "code" →
      ∃ d, (handleAuthorize p ist now s).1 = Response.errorResp 400 "invalid_request" d) := by
  unfold handleAuthorize
  by_cases h1 : truthy p.client_id = true
  case neg => simp [h1]
  by_cases h2 : truthy p.redirect_uri = true
  case neg => simp [h1, h2]
  by_cases h3 : p.response_type = some "code"
  case neg => simp [h1, h2, h3]
  by_cases h4 : truthy p.state = true
  case neg => simp [h1, h2, h3, h4]
  by_cases h5 : truthy p.code_challenge = true
  case neg => simp [h1, h2, h3, h4, h5]
  by_cases h6 : truthy p.code_challenge_method = true
  case neg => simp [h1, h2, h3, h4, h5, h6]
  have h7 : p.code_challenge_method ≠ some "S256" := by
    rw [hmth]
    intro hx
    exact hne (by simpa using hx)
  simp [h1, h2, h3, h4, h5, h6, h7]

theorem C6_witness :
    ∃ d, (handleAuthorize { c6Params with response_type := some "code" } "internal-state" 0
        emptyStore).1 = Response.errorResp 400 "invalid_request" d :=
  (C6_authorize_rejects_non_s256 { c6Params with response_type := some "code" }
    "internal-state" 0 emptyStore "plain" rfl (by decide)).2.2 rfl

/-- C9: the bearer-token resolver returns null when no TokenEntry exists for
the access token; when the entry's bound identity token has expired it deletes
the entry and returns null; otherwise it returns the bound identity token and
leaves the store unchanged. -/
theorem C9_resolve_access_token (a0 : String) (now : Nat) (s : OAuthStore)
    (hn : keysNodup s.tokens) :
    (getTokenByAccessToken s a0 = none →
      getFirebaseTokenFromAccessToken a0 now s = (none, s)) ∧
    (∀ e, getTokenByAccessToken s a0 = some e → now > e.firebase_token_expires_at →
      getFirebaseTokenFromAccessToken a0 now s = (none, deleteToken a0 s) ∧
      getTokenByAccessToken (deleteToken a0 s) a0 = none) ∧
    (∀ e, getTokenByAccessToken s a0 = some e → ¬ now > e.firebase_token_expires_at →
      getFirebaseTokenFromAccessToken a0 now s = (some e.firebase_id_token, s)) := by
  refine ⟨?_, ?_, ?_⟩
  · intro h
    simp [getFirebaseTokenFromAccessToken, h]
  · intro e he hexp
    refine ⟨by simp [getFirebaseTokenFromAccessToken, he, hexp], ?_⟩
    unfold getTokenByAccessToken
    rw [deleteToken_tokens]
    exact getA_delA_self _ hn
  · intro e he hexp
    simp [getFirebaseTokenFromAccessToken, he, hexp]

theorem C9_witness :
    getFirebaseTokenFromAccessToken "unknown-token" 0 emptyStore = (none, emptyStore) :=
  (C9_resolve_access_token "unknown-token" 0 emptyStore (by decide)).1 rfl

/-- C7: a successful refresh_token grant stores a new TokenEntry carrying the
same identity token, identity-token expiry, scope, client_id and resource as
the replaced entry, with the freshly generated access and refresh values, and
responds 200 with expires_in equal to the identity token's remaining lifetime
in whole seconds at the time of the request. -/
theorem C7_refresh_preserves_identity (body : TokenBody) (fa fr : String) (now : Nat)
    (s : OAuthStore) (rt : String) (entry : TokenEntry)
    (hrt : body.refresh_token = some rt) (hrtne : rt ≠ "")
    (hentry : getTokenByRefreshToken s rt = some entry)
    (hcid : truthy body.client_id = false ∨ body.client_id = some entry.client_id)
    (hexp : ¬ now > entry.firebase_token_expires_at) :
    (handleRefreshTokenGrant body fa fr now s).1 =
      Response.tokenResp fa "Bearer" ((entry.firebase_token_expires_at - now) / 1000) fr
        entry.scope ∧
    getTokenByAccessToken (handleRefreshTokenGrant body fa fr now s).2 fa =
      some { access_token := fa, refresh_token := some fr, client_id := entry.client_id,
             scope := entry.scope, firebase_id_token := entry.firebase_id_token,
             firebase_token_expires_at := entry.firebase_token_expires_at,
             resource := entry.resource, created_at := now } := by
  have hbt : truthy (some rt) = true := by simp [truthy, hrtne]
  unfold handleRefreshTokenGrant
  rcases hcid with h | h
  · constructor
    · simp [hbt, hrt, hentry, hexp, h]
    · simp only [hbt, hrt, hentry, hexp, h]
      simp [hbt, getTokenByAccessToken, saveToken_tokens, getA_setA_self, hentry, hexp]
  · constructor
    · simp [hbt, hrt, hentry, hexp, h]
    · simp only [hbt, hrt, hentry, hexp, h]
      simp [hbt, getTokenByAccessToken, saveToken_tokens, getA_setA_self, hentry, hexp]

theorem C7_witness :
    (handleRefreshTokenGrant refreshBody "acc-2" "ref-2" 1000 refreshStore).1 =
      Response.tokenResp "acc-2" "Bearer" 3299 "ref-2" "graffiticode" :=
  (C7_refresh_preserves_identity refreshBody "acc-2" "ref-2" 1000 refreshStore "ref-1"
    refreshEntry rfl (by decide) rfl (Or.inl rfl) (by decide)).1

/-- C2: a first redemption of an authorization code that passes every check
(code present, valid verifier, unused, within expiry, matching client and
redirect URI) succeeds whenever the identity exchange succeeds, and a second
redemption of the same code value fails with 400 invalid_grant whether the
first attempt's identity exchange succeeded or failed. -/
theorem C2_auth_code_single_use (s : OAuthStore) (body1 body2 : TokenBody)
    (ac : AuthorizationCode) (ex1 ex2 : Except String String)
    (fa1 fr1 fa2 fr2 : String) (now1 now2 : Nat) (c v : String)
    (hnodup : keysNodup s.authCodes)
    (hc : body1.code = some c) (hcne : c ≠ "")
    (hv : body1.code_verifier = some v) (hvne : v ≠ "")
    (hac : getAuthCode s c = some ac)
    (hused : ac.used = false)
    (hexp : ¬ now1 > ac.expires_at)
    (hcid : truthy body1.client_id = false ∨ body1.client_id = some ac.client_id)
    (hruri : truthy body1.redirect_uri = false ∨ body1.redirect_uri = some ac.redirect_uri)
    (hpkce : verifyPKCE v ac.code_challenge ac.code_challenge_method = true)
    (hc2 : body2.code = some c)
    (hv2 : truthy body2.code_verifier = true) :
    (∀ fb, ex1 = .ok fb →
      (handleAuthorizationCodeGrant body1 ex1 fa1 fr1 now1 s).1 =
        Response.tokenResp fa1 "Bearer" TOKEN_EXPIRES_IN fr1 ac.scope) ∧
    (∃ d, (handleAuthorizationCodeGrant body2 ex2 fa2 fr2 now2
        (handleAuthorizationCodeGrant body1 ex1 fa1 fr1 now1 s).2).1 =
      Response.errorResp 400 "invalid_grant" d) := by
  have hct : truthy (some c) = true := by simp [truthy, hcne]
  have hvt : truthy (some v) = true := by simp [truthy, hvne]
  have hac' : getA s.authCodes c = some ac := hac
  cases ex1 with
  | ok fb =>
    have hcodes : (handleAuthorizationCodeGrant body1 (.ok fb) fa1 fr1 now1 s).2.authCodes =
        delA (setA s.authCodes c { ac with used := true }) c := by
      rcases hcid with hA | hA <;> rcases hruri with hB | hB <;>
        by_cases hfr : truthy (some fr1) = true <;>
        simp [handleAuthorizationCodeGrant, hc, hv, hct, hvt, hac, hac', hused, hexp,
          hpkce, hA, hB, hfr, markAuthCodeUsed, saveToken, deleteAuthCode, getAuthCode]
    have hgone : getAuthCode (handleAuthorizationCodeGrant body1 (.ok fb) fa1 fr1 now1 s).2 c =
        none := by
      rw [getAuthCode, hcodes]
      exact getA_delA_self _ (keysNodup_setA _ _ hnodup)
    constructor
    · intro fb' hfb'
      obtain rfl : fb = fb' := by injection hfb'
      rcases hcid with hA | hA <;> rcases hruri with hB | hB <;>
        simp [handleAuthorizationCodeGrant, hc, hv, hct, hvt, hac, hac', hused, hexp,
          hpkce, hA, hB]
    · refine ⟨some "Invalid or expired authorization code", ?_⟩
      generalize hS : (handleAuthorizationCodeGrant body1 (.ok fb) fa1 fr1 now1 s).2 = S at hgone
      simp [handleAuthorizationCodeGrant, hc2, hct, hv2, hgone]
  | error msg =>
    have hcodes : (handleAuthorizationCodeGrant body1 (.error msg) fa1 fr1 now1 s).2.authCodes =
        setA s.authCodes c { ac with used := true } := by
      rcases hcid with hA | hA <;> rcases hruri with hB | hB <;>
        simp [handleAuthorizationCodeGrant, hc, hv, hct, hvt, hac, hac', hused, hexp,
          hpkce, hA, hB, markAuthCodeUsed]
    have hgot : getAuthCode (handleAuthorizationCodeGrant body1 (.error msg) fa1 fr1 now1 s).2
        c = some { ac with used := true } := by
      rw [getAuthCode, hcodes]
      exact getA_setA_self _ _ _
    constructor
    · intro fb hfb
      exact Except.noConfusion hfb
    · refine ⟨some "Authorization code already used", ?_⟩
      generalize hS : (handleAuthorizationCodeGrant body1 (.error msg) fa1 fr1 now1 s).2 = S at hgot
      simp [handleAuthorizationCodeGrant, hc2, hct, hv2, hgot]

theorem C2_witness :
    ∃ d, (handleAuthorizationCodeGrant codeBody (.ok "fb2") "a2" "r2" 0
        (handleAuthorizationCodeGrant codeBody (.ok "fb1") "a1" "r1" 0 codeStore).2).1 =
      Response.errorResp 400 "invalid_grant" d :=
  (C2_auth_code_single_use codeStore codeBody codeBody exampleAuthCode (.ok "fb1") (.ok "fb2")
    "a1" "r1" "a2" "r2" 0 0 "code-1" exampleVerifier
    (by decide) rfl (by decide) rfl (by decide) rfl rfl (by decide)
    (Or.inl rfl) (Or.inl rfl) (verifyPKCE_self (by decide)) rfl (by decide)).2

/-- C10: when every validation passes but the identity exchange fails, the
handler answers 500 server_error, the code stays stored with used set to true,
no TokenEntry is created, and any subsequent redemption of that code fails
with 400 invalid_grant. -/
theorem C10_exchange_failure_consumes_code (s : OAuthStore) (body1 body2 : TokenBody)
    (ac : AuthorizationCode) (msg : String) (ex2 : Except String String)
    (fa1 fr1 fa2 fr2 : String) (now1 now2 : Nat) (c v : String)
    (hc : body1.code = some c) (hcne : c ≠ "")
    (hv : body1.code_verifier = some v) (hvne : v ≠ "")
    (hac : getAuthCode s c = some ac)
    (hused : ac.used = false)
    (hexp : ¬ now1 > ac.expires_at)
    (hcid : truthy body1.client_id = false ∨ body1.client_id = some ac.client_id)
    (hruri : truthy body1.redirect_uri = false ∨ body1.redirect_uri = some ac.redirect_uri)
    (hpkce : verifyPKCE v ac.code_challenge ac.code_challenge_method = true)
    (hc2 : body2.code = some c)
    (hv2 : truthy body2.code_verifier = true) :
    (handleAuthorizationCodeGrant body1 (.error msg) fa1 fr1 now1 s).1 =
      Response.errorResp 500 "server_error" (some msg) ∧
    getAuthCode (handleAuthorizationCodeGrant body1 (.error msg) fa1 fr1 now1 s).2 c =
      some { ac with used := true } ∧
    (handleAuthorizationCodeGrant body1 (.error msg) fa1 fr1 now1 s).2.tokens = s.tokens ∧
    (∃ d, (handleAuthorizationCodeGrant body2 ex2 fa2 fr2 now2
        (handleAuthorizationCodeGrant body1 (.error msg) fa1 fr1 now1 s).2).1 =
      Response.errorResp 400 "invalid_grant" d) := by
  have hct : truthy (some c) = true := by simp [truthy, hcne]
  have hvt : truthy (some v) = true := by simp [truthy, hvne]
  have hac' : getA s.authCodes c = some ac := hac
  have hresp : (handleAuthorizationCodeGrant body1 (.error msg) fa1 fr1 now1 s).1 =
      Response.errorResp 500 "server_error" (some msg) := by
    rcases hcid with hA | hA <;> rcases hruri with hB | hB <;>
      simp [handleAuthorizationCodeGrant, hc, hv, hct, hvt, hac, hac', hused, hexp,
        hpkce, hA, hB]
  have hcodes : (handleAuthorizationCodeGrant body1 (.error msg) fa1 fr1 now1 s).2.authCodes =
      setA s.authCodes c { ac with used := true } := by
    rcases hcid with hA | hA <;> rcases hruri with hB | hB <;>
      simp [handleAuthorizationCodeGrant, hc, hv, hct, hvt, hac, hac', hused, hexp,
        hpkce, hA, hB, markAuthCodeUsed]
  have htok : (handleAuthorizationCodeGrant body1 (.error msg) fa1 fr1 now1 s).2.tokens =
      s.tokens := by
    rcases hcid with hA | hA <;> rcases hruri with hB | hB <;>
      simp [handleAuthorizationCodeGrant, hc, hv, hct, hvt, hac, hac', hused, hexp,
        hpkce, hA, hB, markAuthCodeUsed]
  have hgot : getAuthCode (handleAuthorizationCodeGrant body1 (.error msg) fa1 fr1 now1 s).2
      c = some { ac with used := true } := by
    rw [getAuthCode, hcodes]
    exact getA_setA_self _ _ _
  refine ⟨hresp, hgot, htok, some "Authorization code already used", ?_⟩
  generalize hS : (handleAuthorizationCodeGrant body1 (.error msg) fa1 fr1 now1 s).2 = S at hgot
  simp [handleAuthorizationCodeGrant, hc2, hct, hv2, hgot]

theorem C10_witness :
    (handleAuthorizationCodeGrant codeBody (.error "exchange failed") "a1" "r1" 0 codeStore).1 =
      Response.errorResp 500 "server_error" (some "exchange failed") :=
  (C10_exchange_failure_consumes_code codeStore codeBody codeBody exampleAuthCode
    "exchange failed" (.ok "x") "a1" "r1" "a2" "r2" 0 0 "code-1" exampleVerifier
    rfl (by decide) rfl (by decide) rfl rfl (by decide)
    (Or.inl rfl) (Or.inl rfl) (verifyPKCE_self (by decide)) rfl (by decide)).1

/-- C3: after a successful refresh_token rotation, the old refresh-token value
is no longer resolvable in the store, and a later refresh_token grant
presenting it fails with 400 invalid_grant, for every index-consistent,
access-keyed store (the states reachable by the handler operations). -/
theorem C3_rotation_invalidates_old_refresh_token (s : OAuthStore) (body1 body2 : TokenBody)
    (fa1 fr1 fa2 fr2 : String) (now1 now2 : Nat) (rt : String) (entry : TokenEntry)
    (hwf : tokensIndexConsistent s) (hkeyed : tokensKeyed s)
    (hrt1 : body1.refresh_token = some rt) (hrtne : rt ≠ "")
    (hentry : getTokenByRefreshToken s rt = some entry)
    (hcid : truthy body1.client_id = false ∨ body1.client_id = some entry.client_id)
    (hexp : ¬ now1 > entry.firebase_token_expires_at)
    (hfr : fr1 ≠ rt)
    (hrt2 : body2.refresh_token = some rt) :
    getTokenByRefreshToken (handleRefreshTokenGrant body1 fa1 fr1 now1 s).2 rt = none ∧
    (handleRefreshTokenGrant body2 fa2 fr2 now2
        (handleRefreshTokenGrant body1 fa1 fr1 now1 s).2).1 =
      Response.errorResp 400 "invalid_grant" (some "Invalid refresh_token") := by
  obtain ⟨a₀, hidx, ha₀, hget⟩ :
      ∃ a₀, getA s.refreshTokenIndex rt = some a₀ ∧ a₀ ≠ "" ∧
        getA s.tokens a₀ = some entry := by
    unfold getTokenByRefreshToken at hentry
    cases hidx : getA s.refreshTokenIndex rt with
    | none =>
      rw [hidx] at hentry
      exact Option.noConfusion hentry
    | some a₀ =>
      rw [hidx] at hentry
      dsimp only at hentry
      by_cases ha₀ : a₀ = ""
      · rw [if_pos ha₀] at hentry
        exact Option.noConfusion hentry
      · rw [if_neg ha₀] at hentry
        exact ⟨a₀, rfl, ha₀, hentry⟩
  have hrefresh : entry.refresh_token = some rt := by
    obtain ⟨-, e', he', hre'⟩ := hwf.2.2.1 rt a₀ hidx
    rw [hget] at he'
    obtain rfl : entry = e' := by simpa using he'
    exact hre'
  have haeq : entry.access_token = a₀ := hkeyed a₀ entry hget
  have hgetacc : getA s.tokens entry.access_token = some entry := by
    rw [haeq]
    exact hget
  have htre : truthy entry.refresh_token = true := by simp [hrefresh, truthy, hrtne]
  have hbt1 : truthy (some rt) = true := by simp [truthy, hrtne]
  have hdelidx : (deleteToken entry.access_token s).refreshTokenIndex =
      delA s.refreshTokenIndex rt := by
    unfold deleteToken
    simp [hgetacc, htre, hrefresh, hbt1]
  have hs1 : (handleRefreshTokenGrant body1 fa1 fr1 now1 s).2 =
      saveToken { access_token := fa1, refresh_token := some fr1,
                  client_id := entry.client_id, scope := entry.scope,
                  firebase_id_token := entry.firebase_id_token,
                  firebase_token_expires_at := entry.firebase_token_expires_at,
                  resource := entry.resource, created_at := now1 }
        (deleteToken entry.access_token s) := by
    rcases hcid with hA | hA <;>
      simp [handleRefreshTokenGrant, hbt1, hrt1, hentry, hexp, hA]
  have hnone : getA (handleRefreshTokenGrant body1 fa1 fr1 now1 s).2.refreshTokenIndex rt =
      none := by
    rw [hs1, saveToken_index]
    by_cases hfr0 : fr1 = ""
    · rw [if_neg (by simp [truthy, hfr0])]
      rw [hdelidx]
      exact getA_delA_self _ hwf.2.1
    · rw [if_pos (by simp [truthy, hfr0])]
      simp only [Option.getD_some]
      rw [getA_setA_ne _ _ _ _ (Ne.symm hfr), hdelidx]
      exact getA_delA_self _ hwf.2.1
  have hlook : getTokenByRefreshToken (handleRefreshTokenGrant body1 fa1 fr1 now1 s).2 rt =
      none := by
    unfold getTokenByRefreshToken
    rw [hnone]
  refine ⟨hlook, ?_⟩
  generalize hS : (handleRefreshTokenGrant body1 fa1 fr1 now1 s).2 = S at hlook
  simp [handleRefreshTokenGrant, hbt1, hrt2, hlook]

theorem C3_witness :
    getTokenByRefreshToken
      (handleRefreshTokenGrant refreshBody "acc-2" "ref-2" 1000 refreshStore).2 "ref-1" =
    none :=
  (C3_rotation_invalidates_old_refresh_token refreshStore refreshBody refreshBody
    "acc-2" "ref-2" "acc-3" "ref-3" 1000 2000 "ref-1" refreshEntry
    (consistent_saveToken consistent_emptyStore rfl (fun _ _ _ => rfl))
    (keyed_saveToken _ keyed_emptyStore)
    rfl (by decide) rfl (Or.inl rfl) (by decide) (by decide) rfl).1

/-- C8 counterexample: the state reached from the empty store by
`saveToken cE1; saveToken cE2; deleteToken "a1"` — a sequence of the listed
Store operations — stores `cE2` with truthy refresh token "r" while the
refresh-token index no longer contains "r": the index and the map are not
mutually consistent in every reachable state. -/
theorem C8_counterexample :
    getA (List.foldl applyOp emptyStore
        [StoreOp.save cE1, StoreOp.save cE2, StoreOp.del "a1"]).tokens "a2" = some cE2 ∧
    cE2.refresh_token = some "r" ∧
    getA (List.foldl applyOp emptyStore
        [StoreOp.save cE1, StoreOp.save cE2, StoreOp.del "a1"]).refreshTokenIndex "r" =
      none ∧
    ¬ tokensIndexConsistent (List.foldl applyOp emptyStore
        [StoreOp.save cE1, StoreOp.save cE2, StoreOp.del "a1"]) := by
  refine ⟨rfl, rfl, rfl, ?_⟩
  intro hcon
  have hidx := hcon.2.2.2 "a2" cE2 "r" rfl rfl (by decide)
  have hnone : getA (List.foldl applyOp emptyStore
      [StoreOp.save cE1, StoreOp.save cE2, StoreOp.del "a1"]).refreshTokenIndex "r" =
      none := rfl
  rw [hnone] at hidx
  exact Option.noConfusion hidx

/-- C8 (amended): for every store state reached from the empty store by a
sequence of saveToken, deleteToken, deleteTokenByRefreshToken and
cleanupExpired operations in which each saveToken uses an access token not
already stored and a refresh token not already indexed (the freshness the
handlers obtain from `generateRandomString(64)`), the refresh-token index and
the primary token map stay mutually consistent. -/
theorem C8_index_map_consistency (ops : List StoreOp)
    (hops : opsOk emptyStore ops = true) :
    tokensIndexConsistent (ops.foldl applyOp emptyStore) :=
  consistent_applyOps consistent_emptyStore hops

theorem C8_witness :
    tokensIndexConsistent (List.foldl applyOp emptyStore
      [StoreOp.save cE1, StoreOp.cleanup 50, StoreOp.delByRefresh "r"]) :=
  C8_index_map_consistency [StoreOp.save cE1, StoreOp.cleanup 50, StoreOp.delByRefresh "r"]
    (by decide)

theorem C5_witness :
    verifyPKCE exampleVerifier (generateCodeChallenge exampleVerifier) "S256" = true :=
  (C5_verifyPKCE_functional_correctness exampleVerifier
      (generateCodeChallenge exampleVerifier) "S256").mpr
    ⟨rfl, by decide, by decide, by decide, rfl⟩

end OAuthMCP
